import Mathlib

/-!
Verification of the BoumWave static blog generator (generation pipeline).

The definitions below are a shallow embedding of the Python sources under
`src/boumwave/`.  External libraries (pydantic, Jinja2, BeautifulSoup, the
markdown renderer) are modelled at the granularity the repository uses them:
parsed HTML is a list of nodes in document order, a Jinja template is a list
of text/variable chunks, a markdown body is a list of blocks.  The embedded
functions themselves are translated line by line from the repository code;
each definition's doc comment names the Python function it embeds.
-/

namespace BoumWave

/-- Calendar date, as carried by the `published_date` front-matter field
(`datetime.date` in Python). -/
structure Date where
  year : Nat
  month : Nat
  day : Nat
deriving DecidableEq

/-- Strict `<` on dates, mirroring Python `date` ordering
(lexicographic on year, month, day). -/
def Date.ltB (a b : Date) : Bool :=
  if a.year = b.year then
    (if a.month = b.month then decide (a.day < b.day) else decide (a.month < b.month))
  else decide (a.year < b.year)

/-- Zero-padded two-digit rendering of a month or day, as in the ISO form
produced by Python `str(date)`. -/
def pad2 (n : Nat) : String :=
  if n < 10 then "0" ++ toString n else toString n

/-- ISO `YYYY-MM-DD` rendering of a date (Python `str(date)`). -/
def Date.iso (d : Date) : String :=
  toString d.year ++ "-" ++ pad2 d.month ++ "-" ++ pad2 d.day

/-- Lowercase ASCII letter test (`a`-`z`). -/
def isLowerAlpha (c : Char) : Bool :=
  decide ('a' ≤ c) && decide (c ≤ 'z')

/-- ASCII digit test (`0`-`9`). -/
def isDigitChar (c : Char) : Bool :=
  decide ('0' ≤ c) && decide (c ≤ '9')

/-- Character class `[a-z0-9]` of the slug pattern in `models.py`. -/
def isSlugAlnum (c : Char) : Bool :=
  isLowerAlpha c || isDigitChar c

/-- State of the acceptor for the slug regular expression. -/
inductive SlugState where
  | start
  | word
  | hyphen
deriving DecidableEq

/-- One step of the acceptor for `^[a-z0-9]+(?:-[a-z0-9]+)*$` (the `pattern`
of `Post.slug` in `models.py`); `none` is the dead state. -/
def slugStep (s : Option SlugState) (c : Char) : Option SlugState :=
  match s with
  | none => none
  | some .start => if isSlugAlnum c then some .word else none
  | some .word =>
    if isSlugAlnum c then some .word
    else if c = '-' then some .hyphen else none
  | some .hyphen => if isSlugAlnum c then some .word else none

/-- Acceptance of `^[a-z0-9]+(?:-[a-z0-9]+)*$` on a character list. -/
def slugAccepts (l : List Char) : Bool :=
  match l.foldl slugStep (some SlugState.start) with
  | some .word => true
  | _ => false

/-- The slug validation pattern `^[a-z0-9]+(?:-[a-z0-9]+)*$` of
`Post.slug` (`models.py`). -/
def matchesSlugPattern (s : String) : Bool :=
  slugAccepts s.data

/-- The language validation pattern `^[a-z]{2}$` of `Post.lang`
(`models.py`). -/
def matchesLangPattern (s : String) : Bool :=
  match s.data with
  | [a, b] => isLowerAlpha a && isLowerAlpha b
  | _ => false

/-- The `Post` pydantic model of `models.py`: the validated front matter of
one post file.  It has exactly the four fields `title`, `slug`,
`published_date` and `lang`; there is no image field. -/
structure Post where
  title : String
  slug : String
  published_date : Date
  lang : String
deriving DecidableEq

/-- Front matter of a markdown file as read by `frontmatter.load`: each key
optional (missing keys are `none`).  `image_path` records an extra key that
the `Post` model of `models.py` does not declare; pydantic's default config
silently ignores unknown keys. -/
structure FrontMatter where
  title : Option String
  slug : Option String
  published_date : Option Date
  lang : Option String
  image_path : Option String
deriving DecidableEq

/-- `Post.model_validate` applied to front-matter metadata (`models.py`):
all four declared fields must be present, `slug` must match its pattern and
`lang` must match its pattern; the undeclared `image_path` key is ignored.
`none` is a pydantic `ValidationError`. -/
def model_validate (fm : FrontMatter) : Option Post :=
  match fm.title, fm.slug, fm.published_date, fm.lang with
  | some t, some s, some d, some l =>
    if matchesSlugPattern s && matchesLangPattern l then
      some ⟨t, s, d, l⟩
    else none
  | _, _, _, _ => none

/-- A markdown post file: its front matter and its markdown body. -/
structure PostFile where
  front : FrontMatter
  body : String
deriving DecidableEq

/-- Python-level failure outcomes relevant to the pipeline: `systemExit` is
`sys.exit(1)` (class `SystemExit`, not a subclass of `Exception`),
`boumWaveError` is the repository's `BoumWaveError` hierarchy, `valueError`
and `templateError` are `ValueError` and the domain `TemplateError`. -/
inductive PyError where
  | systemExit
  | boumWaveError
  | valueError (msg : String)
  | templateError (msg : String)
deriving DecidableEq

/-- `parse_post_file` of `generation/parsers.py`: validates the front matter
with `Post.model_validate` and returns the post together with the body; on a
`ValidationError` it prints the violations and calls `sys.exit(1)`, so the
failure outcome is `SystemExit`, not a `BoumWaveError`. -/
def parse_post_file (f : PostFile) : Except PyError (Post × String) :=
  match model_validate f.front with
  | some p => Except.ok (p, f.body)
  | none => Except.error PyError.systemExit

/-- The inner loop of `collect_all_posts` (`generation/index_manager.py`,
lines 41-48) over the `.md` files of one post folder: each file is parsed
inside `try: ... except BoumWaveError: continue`, so a `BoumWaveError` is
skipped but any other exception (in particular `SystemExit`) propagates. -/
def collectFolder : List PostFile → Except PyError (List Post)
  | [] => Except.ok []
  | f :: rest =>
    match parse_post_file f with
    | Except.ok (p, _) =>
      match collectFolder rest with
      | Except.ok ps => Except.ok (p :: ps)
      | Except.error e => Except.error e
    | Except.error PyError.boumWaveError => collectFolder rest
    | Except.error e => Except.error e

/-- `collect_all_posts` of `generation/index_manager.py` (lines 19-51): walks
the post folders of the content directory and accumulates every post whose
file parses; there is no filtering on `published_date` anywhere in the
function.  The folder loop has no exception handler of its own. -/
def collect_all_posts (folders : List (List PostFile)) : Except PyError (List Post) :=
  match folders with
  | [] => Except.ok []
  | fd :: rest =>
    match collectFolder fd with
    | Except.ok ps =>
      match collect_all_posts rest with
      | Except.ok qs => Except.ok (ps ++ qs)
      | Except.error e => Except.error e
    | Except.error e => Except.error e

/-- The configuration fields the generation pipeline reads
(`config.py`: `paths.output_folder`, `site.site_url`, `site.logo_path`). -/
structure Config where
  output_folder : String
  site_url : String
  logo_path : String
deriving DecidableEq

/-- `Post.get_relative_url` of `models.py`:
`/{output_folder}/{lang}/{slug}`. -/
def Post.get_relative_url (p : Post) (c : Config) : String :=
  "/" ++ c.output_folder ++ "/" ++ p.lang ++ "/" ++ p.slug

/-- `Post.get_full_url` of `models.py`: site base followed by the relative
URL. -/
def Post.get_full_url (p : Post) (c : Config) : String :=
  c.site_url ++ p.get_relative_url c

/-- The computed field `Post.published_datetime_iso` of `models.py`:
`f"{self.published_date}T00:00:00Z"`. -/
def Post.published_datetime_iso (p : Post) : String :=
  p.published_date.iso ++ "T00:00:00Z"

/-- The `EnrichedPost` pydantic model of `models.py`: the post plus the
derived generation data.  `image` is the resolved social-media image path
(the `FilePath` field). -/
structure EnrichedPost where
  post : Post
  description : String
  image : String
  content_html : String
  config : Config
deriving DecidableEq

/-- The computed field `EnrichedPost.full_url` of `models.py`. -/
def EnrichedPost.full_url (ep : EnrichedPost) : String :=
  ep.post.get_full_url ep.config

/-- A compiled Jinja2 template, as the engine sees it: a sequence of literal
text chunks and variable references.  (Jinja2 itself is an external
library; this is its documented data model for simple substitution
templates.) -/
inductive Chunk where
  | text (s : String)
  | var (name : String)
deriving DecidableEq

/-- Lookup of a variable in a render context (a name-to-value map). -/
def lookupVar (ctx : List (String × String)) (v : String) : Option String :=
  (ctx.find? (fun p => p.fst == v)).map Prod.snd

/-- Jinja2 rendering with the default (non-strict) `Undefined`: a variable
that is not in the context renders as the empty string, never an error. -/
def renderJinja (tpl : List Chunk) (ctx : List (String × String)) : String :=
  tpl.foldl
    (fun acc c =>
      acc ++ match c with
      | Chunk.text s => s
      | Chunk.var v => (lookupVar ctx v).getD "")
    ""

/-- The context dictionary built by `render_template` in
`generation/template_engine.py` (lines 39-44): exactly the four entries
`lang`, `title`, `published_date` and `content`.  The `published_date`
value is the Python `date` object, which stringifies to its ISO form. -/
def render_context (ep : EnrichedPost) : List (String × String) :=
  [("lang", ep.post.lang),
   ("title", ep.post.title),
   ("published_date", ep.post.published_date.iso),
   ("content", ep.content_html)]

/-- `render_template` of `generation/template_engine.py`: renders the
template with the four-entry context above. -/
def render_template (tpl : List Chunk) (ep : EnrichedPost) : String :=
  renderJinja tpl (render_context ep)

/-- A node of parsed HTML in document order, the granularity at which the
repository uses BeautifulSoup: named elements with attributes, and text
nodes (`tag.name` is `None` for text nodes). -/
inductive HtmlNode where
  | elem (name : String) (attrs : List (String × String))
  | text (s : String)
deriving DecidableEq

/-- Attribute lookup on a parsed element (`tag.get(key)`). -/
def attrLookup (attrs : List (String × String)) (key : String) : Option String :=
  (attrs.find? (fun p => p.fst == key)).map Prod.snd

/-- Whether a node is an element (Python `tag.name` is truthy). -/
def HtmlNode.isElem : HtmlNode → Bool
  | HtmlNode.elem _ _ => true
  | HtmlNode.text _ => false

/-- `extract_first_image` of `generation/metadata.py`: `soup.find("img")`
takes the first `img` element of the document; its `src` is returned when
present and non-empty (`if img_tag and img_tag.get("src")`), otherwise the
result is `None`. -/
def extract_first_image (nodes : List HtmlNode) : Option String :=
  match nodes.find? (fun n =>
    match n with
    | HtmlNode.elem "img" _ => true
    | _ => false) with
  | some (HtmlNode.elem _ attrs) =>
    (match attrLookup attrs "src" with
     | some src => if src == "" then none else some src
     | none => none)
  | _ => none

/-- Step 4 of `_generate_impl` in `commands/generate.py` (lines 154-157):
`image_path = first_image if first_image else Path(config.site.logo_path)`.
The image used for SEO is the first image of the rendered content when one
exists, otherwise the configured logo; the post front matter is never
consulted. -/
def resolve_image (contentNodes : List HtmlNode) (logoPath : String) : String :=
  (extract_first_image contentNodes).getD logoPath

/-- A parsed HTML document as `inject_meta_tags_and_canonical` accesses it:
the children of the `<head>` element when `soup.find("head")` finds one
(`none` when the document has no head), and the remaining nodes. -/
structure HtmlDoc where
  headChildren : Option (List HtmlNode)
  body : List HtmlNode
deriving DecidableEq

/-- `head.find("meta", charset=True)`: a `meta` element carrying a
`charset` attribute. -/
def isCharsetMeta (n : HtmlNode) : Bool :=
  match n with
  | HtmlNode.elem "meta" attrs => (attrLookup attrs "charset").isSome
  | _ => false

/-- `inject_meta_tags_and_canonical` of `generation/metadata.py` (lines
104-144): when the document has no `<head>` it raises the builtin
`ValueError("No <head> tag found in template")`; otherwise it creates the
canonical `<link>` element, inserts it right after the first charset
`<meta>` when one exists or else as the first child of `<head>`, and then
appends each element node of the parsed meta-tag fragment (text nodes are
skipped by `if tag.name`) to the end of `<head>`. -/
def inject_meta_tags_and_canonical (doc : HtmlDoc) (metaTags : List HtmlNode)
    (canonicalUrl : String) : Except PyError HtmlDoc :=
  match doc.headChildren with
  | none => Except.error (PyError.valueError "No <head> tag found in template")
  | some children =>
    let canonicalTag := HtmlNode.elem "link" [("rel", "canonical"), ("href", canonicalUrl)]
    let children1 :=
      match children.findIdx? isCharsetMeta with
      | some i => children.take (i + 1) ++ canonicalTag :: children.drop (i + 1)
      | none => canonicalTag :: children
    let metaElems := metaTags.filter HtmlNode.isElem
    Except.ok ⟨some (children1 ++ metaElems), doc.body⟩

/-- Boolean prefix test on character lists (`pat` begins `l`). -/
def isPrefixOfL : List Char → List Char → Bool
  | [], _ => true
  | _ :: _, [] => false
  | a :: as, b :: bs => a == b && isPrefixOfL as bs

/-- Python `str.find`: index of the leftmost occurrence of `pat`, `none`
when absent (Python returns `-1`). -/
def findIdx (pat : List Char) : List Char → Option Nat
  | [] => if isPrefixOfL pat [] then some 0 else none
  | a :: tl =>
    if isPrefixOfL pat (a :: tl) then some 0
    else (findIdx pat tl).map (· + 1)

/-- The marker-splice step of `update_index` (`generation/index_manager.py`,
lines 147-157): `start_pos = index_content.find(start_marker)`,
`end_pos = index_content.find(end_marker)`, then
`index_content[: start_pos + len(start_marker)] + "\n" + post_links_html +
"\n" + index_content[end_pos:]`.  `update_index` is only called after
`validate_environment` has checked that both markers occur, so the
fallback branch for an absent marker is never exercised. -/
def splice_between_markers (doc startMarker endMarker repl : List Char) : List Char :=
  match findIdx startMarker doc, findIdx endMarker doc with
  | some s, some e =>
    doc.take (s + startMarker.length) ++ '\n' :: (repl ++ '\n' :: doc.drop e)
  | _, _ => doc

/-- A block of the markdown body after rendering to HTML and parsing:
either a heading (`h1`-`h6`, with its level) or a text-bearing block. -/
inductive MdBlock where
  | heading (level : Nat) (content : String)
  | para (content : String)
deriving DecidableEq

/-- Python `str` whitespace (`\s`): space, tab, newline, carriage return,
vertical tab, form feed. -/
def isPySpace (c : Char) : Bool :=
  c == ' ' || c == '\t' || c == '\n' || c == '\r' || c == '\x0b' || c == '\x0c'

/-- Drops the longest trailing run of characters satisfying `p`. -/
def dropTrailing (p : Char → Bool) : List Char → List Char
  | [] => []
  | a :: tl =>
    match dropTrailing p tl with
    | [] => if p a then [] else [a]
    | b :: t => a :: b :: t

/-- Strips leading and trailing Python whitespace from a character list. -/
def stripChars (l : List Char) : List Char :=
  dropTrailing isPySpace (l.dropWhile isPySpace)

/-- Joins non-empty text segments with single spaces. -/
def joinWithSpace : List (List Char) → List Char
  | [] => []
  | [x] => x
  | x :: y :: rest => x ++ ' ' :: joinWithSpace (y :: rest)

/-- Lines 24-35 of `extract_description` (`generation/metadata.py`): render
the markdown body, `decompose` every `h1`-`h6` element, then
`soup.get_text(separator=" ", strip=True)`: every remaining text segment is
stripped, empty segments are dropped, and the rest are joined with single
spaces.  The markdown renderer and BeautifulSoup are external libraries;
they are modelled on the block structure of the body. -/
def get_text (blocks : List MdBlock) : List Char :=
  joinWithSpace (blocks.filterMap fun b =>
    match b with
    | MdBlock.heading _ _ => none
    | MdBlock.para s =>
      let t := stripChars s.data
      if t.isEmpty then none else some t)

/-- Python `str.rfind` for a single character: index of the rightmost
occurrence, `none` when absent (Python returns `-1`). -/
def rfindIdx (c : Char) : List Char → Option Nat
  | [] => none
  | a :: tl =>
    match rfindIdx c tl with
    | some j => some (j + 1)
    | none => if a == c then some 0 else none

/-- `extract_description` of `generation/metadata.py` (lines 11-46), after
`get_text`: if the text fits in `max_length` it is returned whole;
otherwise it is truncated to `max_length` characters, cut back to
`truncated.rfind(" ")` when that index is strictly positive, and `"..."`
is appended.  The Python default for `max_length` is 155. -/
def extract_description (blocks : List MdBlock) (max_length : Nat) : String :=
  let text := get_text blocks
  if text.length ≤ max_length then String.mk text
  else
    let truncated := text.take max_length
    let truncated' :=
      match rfindIdx ' ' truncated with
      | some j => if 0 < j then truncated.take j else truncated
      | none => truncated
    String.mk truncated' ++ "..."

/-- The character class `[\s_]` of the first substitution in `slugify`. -/
def isSpaceOrUnderscore (c : Char) : Bool :=
  isPySpace c || c == '_'

/-- `re.sub(r"[\s_]+", "-", text)`: every maximal run of whitespace or
underscores becomes a single hyphen. -/
def replaceSpaceRuns : List Char → List Char
  | [] => []
  | [a] => if isSpaceOrUnderscore a then ['-'] else [a]
  | a :: b :: rest =>
    if isSpaceOrUnderscore a && isSpaceOrUnderscore b then replaceSpaceRuns (b :: rest)
    else (if isSpaceOrUnderscore a then '-' else a) :: replaceSpaceRuns (b :: rest)

/-- `re.sub(r"[^a-z0-9-]", "", text)`: keep only lowercase alphanumerics
and hyphens. -/
def keepSlugChars (l : List Char) : List Char :=
  l.filter (fun c => isSlugAlnum c || c == '-')

/-- `re.sub(r"-+", "-", text)`: every maximal run of hyphens becomes a
single hyphen. -/
def collapseHyphens : List Char → List Char
  | [] => []
  | [a] => [a]
  | a :: b :: rest =>
    if a == '-' && b == '-' then collapseHyphens (b :: rest)
    else a :: collapseHyphens (b :: rest)

/-- `text.strip("-")`: drop leading and trailing hyphens. -/
def stripHyphens (l : List Char) : List Char :=
  dropTrailing (fun c => c == '-') (l.dropWhile (fun c => c == '-'))

/-- `slugify` of `commands/new_post.py` (lines 11-31): lowercase, turn
whitespace/underscore runs into hyphens, drop every character outside
`[a-z0-9-]`, collapse hyphen runs, strip edge hyphens.  `Char.toLower`
models `str.lower()` on ASCII; any character it leaves outside `[a-z0-9-]`
is removed by the filter, as in Python. -/
def slugify (s : String) : String :=
  String.mk (stripHyphens (collapseHyphens (keepSlugChars (replaceSpaceRuns
    (s.data.map Char.toLower)))))

/-- No two adjacent hyphens anywhere in the list. -/
def noDoubleHyphen : List Char → Bool
  | a :: b :: t => !(a == '-' && b == '-') && noDoubleHyphen (b :: t)
  | _ => true

/-- `generate_meta_tags` of `generation/metadata.py` (lines 68-101): the
f-string of SEO, Open Graph and Twitter meta tags, transcribed verbatim
(each interpolated tag grouped as one parenthesised subterm). -/
def generate_meta_tags (post : Post) (full_url : String) (image_path : String)
    (description : String) : String :=
  "    <!-- SEO -->\n    "
  ++ ("<meta name=\"description\" content=\"" ++ description ++ "\">")
  ++ "\n\n    <!-- Open Graph / Facebook -->\n    "
  ++ "<meta property=\"og:type\" content=\"article\">"
  ++ "\n    "
  ++ ("<meta property=\"og:title\" content=\"" ++ post.title ++ "\">")
  ++ "\n    "
  ++ ("<meta property=\"og:description\" content=\"" ++ description ++ "\">")
  ++ "\n    "
  ++ ("<meta property=\"og:url\" content=\"" ++ full_url ++ "\">")
  ++ "\n    "
  ++ ("<meta property=\"og:image\" content=\"" ++ image_path ++ "\">")
  ++ "\n    "
  ++ ("<meta property=\"og:locale\" content=\"" ++ post.lang ++ "\">")
  ++ "\n    "
  ++ ("<meta property=\"article:published_time\" content=\""
      ++ post.published_datetime_iso ++ "\">")
  ++ "\n\n    <!-- Twitter Card -->\n    "
  ++ "<meta name=\"twitter:card\" content=\"summary_large_image\">"
  ++ "\n    "
  ++ ("<meta name=\"twitter:title\" content=\"" ++ post.title ++ "\">")
  ++ "\n    "
  ++ ("<meta name=\"twitter:description\" content=\"" ++ description ++ "\">")
  ++ "\n    "
  ++ ("<meta name=\"twitter:image\" content=\"" ++ image_path ++ "\">")

/-- Modelled from the spec: `generate_json_ld` is called by the unit tests
but its definition is not under `src/`.  Spec 4.4: a JSON-LD script block
with `@context: https://schema.org`, `@type: BlogPosting`, headline, url,
inLanguage and datePublished (from the ISO datetime), every interpolation
the literal field value. -/
def generate_json_ld (ep : EnrichedPost) : String :=
  "<script type=\"application/ld+json\">\n\x7b\n    "
  ++ "\"@context\": \"https://schema.org\""
  ++ ",\n    "
  ++ "\"@type\": \"BlogPosting\""
  ++ ",\n    "
  ++ ("\"headline\": \"" ++ ep.post.title ++ "\"")
  ++ ",\n    "
  ++ ("\"url\": \"" ++ ep.full_url ++ "\"")
  ++ ",\n    "
  ++ ("\"inLanguage\": \"" ++ ep.post.lang ++ "\"")
  ++ ",\n    "
  ++ ("\"datePublished\": \"" ++ ep.post.published_datetime_iso ++ "\"")
  ++ "\n\x7d\n</script>"

/-- Modelled from the spec: `generate_seo_tags` is imported and called by
`commands/generate.py` (lines 172-173, "Generate SEO tags (meta tags +
JSON-LD)") but its definition is not under `src/`.  Spec 4.4: the two
artifacts are produced and concatenated.  The meta-tag block is the
verbatim `generate_meta_tags` of `metadata.py` applied to the enriched
post's own fields. -/
def generate_seo_tags (ep : EnrichedPost) : String :=
  generate_meta_tags ep.post ep.full_url ep.image ep.description
  ++ "\n" ++ generate_json_ld ep

/-- `needle` occurs contiguously inside `hay`. -/
def strContains (hay needle : String) : Prop :=
  ∃ pre suf : String, hay = pre ++ needle ++ suf

/-- The sample configuration of the test suite (`conftest.py`). -/
def sampleConfig : Config :=
  ⟨"posts", "https://example.com", "assets/logo.jpg"⟩

/-- The sample post of the test suite (`conftest.py`). -/
def samplePost : Post :=
  ⟨"My Awesome Post", "my-awesome-post", ⟨2025, 10, 23⟩, "en"⟩

/-- The sample enriched post of the test suite (`conftest.py`). -/
def sampleEnrichedPost : EnrichedPost :=
  ⟨samplePost, "This is a test post description.", "assets/logo.jpg",
   "<h1>My Awesome Post</h1><p>This is the content.</p>", sampleConfig⟩

/-- Claim C2: evaluation at the failing input.  A content folder holds an
invalid post file (slug `INVALID-SLUG` fails the slug pattern) followed by
a perfectly valid one.  `parse_post_file` answers the validation failure
with `sys.exit(1)` (`SystemExit`), which the `except BoumWaveError` handler
of `collect_all_posts` does not catch, so the whole collection run aborts
and the valid post is lost — the invalid file is fatal, not a recoverable
warning.  The second conjunct shows the valid file on its own parses
fine. -/
theorem collect_run_aborts_on_invalid_post :
    collect_all_posts
      [[⟨⟨some "Invalid Post", some "INVALID-SLUG", some ⟨2025, 10, 20⟩, some "en", none⟩,
         "Content"⟩,
        ⟨⟨some "Valid Post", some "valid-post", some ⟨2025, 10, 20⟩, some "en", none⟩,
         "Content"⟩]]
      = Except.error PyError.systemExit
    ∧ parse_post_file
        ⟨⟨some "Valid Post", some "valid-post", some ⟨2025, 10, 20⟩, some "en", none⟩,
         "Content"⟩
      = Except.ok (⟨"Valid Post", "valid-post", ⟨2025, 10, 20⟩, "en"⟩, "Content") :=
  ⟨rfl, rfl⟩

/-- Claim C3: evaluation at the failing input.  A valid post dated
2099-12-31 — strictly after today (2026-10-12) — is returned by
`collect_all_posts`: the function has no `published_date` filter, so
future-dated posts are not excluded. -/
theorem collect_returns_future_dated_post :
    collect_all_posts
      [[⟨⟨some "Future Post", some "future-post", some ⟨2099, 12, 31⟩, some "en", none⟩,
         "Content"⟩]]
      = Except.ok [⟨"Future Post", "future-post", ⟨2099, 12, 31⟩, "en"⟩]
    ∧ Date.ltB ⟨2026, 10, 12⟩ ⟨2099, 12, 31⟩ = true :=
  ⟨rfl, rfl⟩

/-- Claim C1: evaluation of the splice step of `update_index` at the
failing input.  The spliced string itself keeps every byte up to and
including the start marker (position 42) and every byte from the end
marker (position 45 of the input) onward; but `update_index` then writes
`BeautifulSoup(new_content, "html.parser").prettify()`, which re-serializes
the whole document (every element re-indented onto its own line), so the
file on disk is not byte-identical to the input outside the marker span. -/
theorem update_index_splice_at_failing_input :
    splice_between_markers
      "<body><p>intro</p><ul><!-- POSTS_START -->old<!-- POSTS_END --></ul><footer>c</footer></body>".data
      "<!-- POSTS_START -->".data "<!-- POSTS_END -->".data "<li>Test Post</li>".data
      = "<body><p>intro</p><ul><!-- POSTS_START -->\n<li>Test Post</li>\n<!-- POSTS_END --></ul><footer>c</footer></body>".data
    ∧ (splice_between_markers
        "<body><p>intro</p><ul><!-- POSTS_START -->old<!-- POSTS_END --></ul><footer>c</footer></body>".data
        "<!-- POSTS_START -->".data "<!-- POSTS_END -->".data "<li>Test Post</li>".data).take 42
      = "<body><p>intro</p><ul><!-- POSTS_START -->old<!-- POSTS_END --></ul><footer>c</footer></body>".data.take 42
    ∧ (splice_between_markers
        "<body><p>intro</p><ul><!-- POSTS_START -->old<!-- POSTS_END --></ul><footer>c</footer></body>".data
        "<!-- POSTS_START -->".data "<!-- POSTS_END -->".data "<li>Test Post</li>".data).drop 62
      = "<body><p>intro</p><ul><!-- POSTS_START -->old<!-- POSTS_END --></ul><footer>c</footer></body>".data.drop 45 :=
  ⟨rfl, rfl, rfl⟩

/-- Claim C4: evaluation at the failing input.  A front matter that
declares `image_path: declared.png` validates to a `Post` that simply drops
the key (the model has no image field), and the image used for the SEO tags
is resolved from the rendered content alone: first `<img>` `src` when
present, otherwise the configured logo.  The declared image can never take
precedence, so the claimed three-step fallback chain does not exist in the
code. -/
theorem seo_image_ignores_declared_image :
    model_validate
      ⟨some "Post With Image", some "post-with-image", some ⟨2025, 10, 20⟩, some "en",
       some "declared.png"⟩
      = some ⟨"Post With Image", "post-with-image", ⟨2025, 10, 20⟩, "en"⟩
    ∧ resolve_image [HtmlNode.elem "p" [], HtmlNode.elem "img" [("src", "hero.jpg")]]
        "assets/logo.jpg" = "hero.jpg"
    ∧ ("hero.jpg" : String) ≠ "declared.png"
    ∧ resolve_image [HtmlNode.elem "p" []] "assets/logo.jpg" = "assets/logo.jpg" :=
  ⟨rfl, rfl, by decide, rfl⟩

/-- Claim C5: the context built by `render_template` exposes exactly
`lang`, `title`, `published_date` and `content`; the claimed variables
`published_on_date`, `published_datetime_iso` and `image_path` are not in
the context, so (with Jinja2's default non-strict undefined) a template
referencing them renders the empty string, even though the post has a
non-empty ISO datetime. -/
theorem render_template_missing_variables :
    (∀ ep : EnrichedPost,
      (render_context ep).map Prod.fst = ["lang", "title", "published_date", "content"])
    ∧ render_template [Chunk.var "published_on_date"] sampleEnrichedPost = ""
    ∧ render_template [Chunk.var "published_datetime_iso"] sampleEnrichedPost = ""
    ∧ render_template [Chunk.var "image_path"] sampleEnrichedPost = ""
    ∧ samplePost.published_datetime_iso = "2025-10-23T00:00:00Z"
    ∧ render_template [Chunk.var "title"] sampleEnrichedPost = "My Awesome Post" :=
  ⟨fun _ => rfl, rfl, rfl, rfl, rfl, rfl⟩

/-- Claim C9: on a document without `<head>` the injector fails with the
builtin `ValueError("No <head> tag found in template")`, which is a
different error value than the domain template error the claim names; on
documents with a head, the canonical link goes right after the charset
`<meta>` when one exists, else first, and the element nodes of the meta
fragment are appended at the end (text nodes skipped). -/
theorem inject_raises_builtin_valueerror :
    inject_meta_tags_and_canonical ⟨none, [HtmlNode.elem "p" [], HtmlNode.text "Content"]⟩
        [HtmlNode.elem "meta" [("name", "description")]] "https://example.com/test"
      = Except.error (PyError.valueError "No <head> tag found in template")
    ∧ PyError.valueError "No <head> tag found in template"
        ≠ PyError.templateError "no head tag found"
    ∧ inject_meta_tags_and_canonical
        ⟨some [HtmlNode.elem "meta" [("charset", "UTF-8")], HtmlNode.elem "title" []], []⟩
        [HtmlNode.elem "meta" [("name", "description"), ("content", "d")], HtmlNode.text "\n"]
        "https://example.com/test"
      = Except.ok ⟨some
          [HtmlNode.elem "meta" [("charset", "UTF-8")],
           HtmlNode.elem "link" [("rel", "canonical"), ("href", "https://example.com/test")],
           HtmlNode.elem "title" [],
           HtmlNode.elem "meta" [("name", "description"), ("content", "d")]], []⟩
    ∧ inject_meta_tags_and_canonical
        ⟨some [HtmlNode.elem "title" []], []⟩ [] "https://example.com/test"
      = Except.ok ⟨some
          [HtmlNode.elem "link" [("rel", "canonical"), ("href", "https://example.com/test")],
           HtmlNode.elem "title" []], []⟩ :=
  ⟨rfl, by decide, rfl, rfl⟩

theorem mk_append_length (l : List Char) (s : String) :
    (String.mk l ++ s).length = l.length + s.length := by
  cases s with
  | mk m => exact List.length_append l m

theorem rfindIdx_spec (c : Char) :
    ∀ l j, rfindIdx c l = some j → j < l.length ∧ l[j]? = some c := by
  intro l
  induction l with
  | nil => intro j h; simp [rfindIdx] at h
  | cons a tl ih =>
    intro j h
    unfold rfindIdx at h
    cases heq : rfindIdx c tl with
    | some j' =>
      rw [heq] at h
      cases h
      obtain ⟨h1, h2⟩ := ih j' heq
      refine ⟨Nat.succ_lt_succ h1, ?_⟩
      simpa using h2
    | none =>
      rw [heq] at h
      by_cases hc : (a == c) = true
      · rw [if_pos hc] at h
        cases h
        exact ⟨Nat.succ_pos _, by simp [eq_of_beq hc]⟩
      · rw [if_neg hc] at h
        cases h

/-- Claim C6 counterexample: a body that is a single ten-character word,
with `max_length = 5`.  The first five characters contain no space, so
`rfind(" ")` finds nothing, the raw prefix `"aaaaa"` is kept and `"..."`
appended: the result ends mid-word (the next source character is `'a'`,
not a space), contradicting the claim that a truncated description is
always cut at a space boundary. -/
theorem extract_description_cuts_mid_word :
    extract_description [MdBlock.para "aaaaaaaaaa"] 5 = "aaaaa..."
    ∧ rfindIdx ' ' ((get_text [MdBlock.para "aaaaaaaaaa"]).take 5) = none
    ∧ (get_text [MdBlock.para "aaaaaaaaaa"])[5]? = some 'a'
    ∧ ('a' : Char) ≠ ' ' :=
  ⟨rfl, rfl, rfl, by decide⟩

/-- Claim C6 (amended): `extract_description` never returns more than
`max_length + 3` characters; when the text is longer than `max_length` and
the first `max_length` characters contain a space at a strictly positive
index, the cut is at the last such space (a genuine word boundary) and
`"..."` is appended; a body consisting only of headings yields the empty
string.  (When there is no such space the first `max_length` characters
are kept verbatim, possibly mid-word — see the counterexample.) -/
theorem extract_description_props :
    (∀ blocks maxLen, (extract_description blocks maxLen).length ≤ maxLen + 3)
    ∧ (∀ blocks maxLen j, maxLen < (get_text blocks).length →
        rfindIdx ' ' ((get_text blocks).take maxLen) = some j → 0 < j →
        extract_description blocks maxLen = String.mk ((get_text blocks).take j) ++ "..."
          ∧ (get_text blocks)[j]? = some ' ')
    ∧ (∀ blocks maxLen, (∀ b ∈ blocks, ∃ lv s, b = MdBlock.heading lv s) →
        extract_description blocks maxLen = "") := by
  refine ⟨?_, ?_, ?_⟩
  · intro blocks maxLen
    unfold extract_description
    by_cases h : (get_text blocks).length ≤ maxLen
    · rw [if_pos h]
      exact Nat.le_trans h (Nat.le_add_right _ 3)
    · rw [if_neg h]
      cases heq : rfindIdx ' ' ((get_text blocks).take maxLen) with
      | some j =>
        simp only [heq]
        by_cases hj : 0 < j
        · rw [if_pos hj, mk_append_length]
          have h1 : (((get_text blocks).take maxLen).take j).length ≤ maxLen :=
            Nat.le_trans (by rw [List.length_take]; exact Nat.min_le_right _ _)
              (List.length_take_le maxLen _)
          exact Nat.add_le_add_right h1 3
        · rw [if_neg hj, mk_append_length]
          exact Nat.add_le_add_right (List.length_take_le maxLen _) 3
      | none =>
        simp only [heq]
        rw [mk_append_length]
        exact Nat.add_le_add_right (List.length_take_le maxLen _) 3
  · intro blocks maxLen j hlen heq hj
    have hspec := rfindIdx_spec ' ' _ j heq
    have hmaxlen : ((get_text blocks).take maxLen).length = maxLen := by
      rw [List.length_take]
      exact min_eq_left (Nat.le_of_lt hlen)
    have hjmax : j < maxLen := by rw [hmaxlen] at hspec; exact hspec.1
    constructor
    · unfold extract_description
      rw [if_neg (Nat.not_le.mpr hlen)]
      simp only [heq]
      rw [if_pos hj, List.take_take, min_eq_left (Nat.le_of_lt hjmax)]
    · rw [← List.getElem?_take_of_lt hjmax]
      exact hspec.2
  · intro blocks maxLen hall
    have hnil : get_text blocks = [] := by
      unfold get_text
      have : (blocks.filterMap fun b =>
          match b with
          | MdBlock.heading _ _ => none
          | MdBlock.para s =>
            let t := stripChars s.data
            if t.isEmpty then none else some t) = [] := by
        rw [List.filterMap_eq_nil_iff]
        intro b hb
        obtain ⟨lv, s, rfl⟩ := hall b hb
        rfl
      rw [this]
      rfl
    unfold extract_description
    rw [hnil]
    simp only [List.length_nil]
    rw [if_pos (Nat.zero_le maxLen)]

/-- Claim C6 witness: the amended theorem applied to the concrete body
"hello world foo" with `max_length = 8`; the last space in the first eight
characters is at index 5, so the description is cut there. -/
theorem extract_description_props_witness :
    8 < (get_text [MdBlock.para "hello world foo"]).length
    ∧ (extract_description [MdBlock.para "hello world foo"] 8
        = String.mk ((get_text [MdBlock.para "hello world foo"]).take 5) ++ "..."
      ∧ (get_text [MdBlock.para "hello world foo"])[5]? = some ' ') :=
  ⟨by decide,
   extract_description_props.2.1 [MdBlock.para "hello world foo"] 8 5
     (by decide) (by decide) (by decide)⟩

theorem mem_of_mem_dropWhile (p : Char → Bool) :
    ∀ (l : List Char) (c : Char), c ∈ l.dropWhile p → c ∈ l := by
  intro l
  induction l with
  | nil => intro c h; simpa using h
  | cons a tl ih =>
    intro c h
    rw [List.dropWhile_cons] at h
    by_cases hp : p a = true
    · rw [if_pos hp] at h
      exact List.mem_cons_of_mem a (ih c h)
    · rw [if_neg hp] at h
      exact h

theorem dropWhile_head_false (p : Char → Bool) :
    ∀ (l : List Char) (a : Char) (t : List Char), List.dropWhile p l = a :: t → p a = false := by
  intro l
  induction l with
  | nil => intro a t h; simp at h
  | cons x xs ih =>
    intro a t h
    rw [List.dropWhile_cons] at h
    by_cases hp : p x = true
    · rw [if_pos hp] at h
      exact ih a t h
    · rw [if_neg hp] at h
      injection h with h1 _
      subst h1
      simpa using hp

theorem noDouble_tail (a : Char) (tl : List Char) (h : noDoubleHyphen (a :: tl) = true) :
    noDoubleHyphen tl = true := by
  cases tl with
  | nil => rfl
  | cons b t =>
    have h' : (!(a == '-' && b == '-') && noDoubleHyphen (b :: t)) = true := h
    rw [Bool.and_eq_true] at h'
    exact h'.2

theorem noDouble_pair (a b : Char) (t : List Char)
    (h : noDoubleHyphen (a :: b :: t) = true) : (a == '-' && b == '-') = false := by
  have h' : (!(a == '-' && b == '-') && noDoubleHyphen (b :: t)) = true := h
  rw [Bool.and_eq_true] at h'
  cases hab : (a == '-' && b == '-')
  · rfl
  · rw [hab] at h'
    simp at h'

theorem noDouble_dropWhile (p : Char → Bool) :
    ∀ l, noDoubleHyphen l = true → noDoubleHyphen (l.dropWhile p) = true := by
  intro l
  induction l with
  | nil => intro _; simpa
  | cons a tl ih =>
    intro h
    rw [List.dropWhile_cons]
    by_cases hp : p a = true
    · rw [if_pos hp]
      exact ih (noDouble_tail a tl h)
    · rw [if_neg hp]
      exact h

theorem mem_of_mem_dropTrailing (p : Char → Bool) :
    ∀ l c, c ∈ dropTrailing p l → c ∈ l := by
  intro l
  induction l with
  | nil => intro c h; simpa [dropTrailing] using h
  | cons a tl ih =>
    intro c h
    unfold dropTrailing at h
    cases h2 : dropTrailing p tl with
    | nil =>
      rw [h2] at h
      by_cases hp : p a = true
      · rw [if_pos hp] at h
        simp at h
      · rw [if_neg hp] at h
        simp at h
        simp [h]
    | cons b u =>
      rw [h2] at h
      rcases List.mem_cons.mp h with h3 | h3
      · simp [h3]
      · exact List.mem_cons_of_mem a (ih c (h2 ▸ h3))

theorem dropTrailing_head (p : Char → Bool) :
    ∀ l b t, dropTrailing p l = b :: t → ∃ t', l = b :: t' := by
  intro l
  cases l with
  | nil => intro b t h; simp [dropTrailing] at h
  | cons a tl =>
    intro b t h
    unfold dropTrailing at h
    cases h2 : dropTrailing p tl with
    | nil =>
      rw [h2] at h
      by_cases hp : p a = true
      · rw [if_pos hp] at h
        cases h
      · rw [if_neg hp] at h
        injection h with h1 _
        subst h1
        exact ⟨tl, rfl⟩
    | cons c u =>
      rw [h2] at h
      injection h with h1 _
      subst h1
      exact ⟨tl, rfl⟩

theorem dropTrailing_getLast_not (p : Char → Bool) :
    ∀ l c, (dropTrailing p l).getLast? = some c → p c = false := by
  intro l
  induction l with
  | nil => intro c h; simp [dropTrailing] at h
  | cons a tl ih =>
    intro c h
    unfold dropTrailing at h
    cases h2 : dropTrailing p tl with
    | nil =>
      rw [h2] at h
      by_cases hp : p a = true
      · rw [if_pos hp] at h
        simp at h
      · rw [if_neg hp] at h
        simp at h
        subst h
        simpa using hp
    | cons b u =>
      rw [h2] at h
      rw [List.getLast?_cons_cons] at h
      exact ih c (h2 ▸ h)

theorem noDouble_dropTrailing (p : Char → Bool) :
    ∀ l, noDoubleHyphen l = true → noDoubleHyphen (dropTrailing p l) = true := by
  intro l
  induction l with
  | nil => intro _; simpa [dropTrailing]
  | cons a tl ih =>
    intro h
    unfold dropTrailing
    cases h2 : dropTrailing p tl with
    | nil =>
      by_cases hp : p a = true
      · rw [if_pos hp]; rfl
      · rw [if_neg hp]; rfl
    | cons b u =>
      obtain ⟨t', ht'⟩ := dropTrailing_head p tl b u h2
      have hnd : noDoubleHyphen (b :: u) = true := h2 ▸ ih (noDouble_tail a tl h)
      have hpair : (a == '-' && b == '-') = false := by
        have := h
        rw [ht'] at this
        exact noDouble_pair a b t' this
      show (!(a == '-' && b == '-') && noDoubleHyphen (b :: u)) = true
      rw [hpair, hnd]
      rfl

theorem collapseHyphens_mem :
    ∀ l c, c ∈ collapseHyphens l → c ∈ l := by
  intro l
  induction l with
  | nil => intro c h; simpa [collapseHyphens] using h
  | cons a tl ih =>
    intro c h
    cases tl with
    | nil => simpa [collapseHyphens] using h
    | cons b rest =>
      unfold collapseHyphens at h
      by_cases hd : (a == '-' && b == '-') = true
      · rw [if_pos hd] at h
        exact List.mem_cons_of_mem a (ih c h)
      · rw [if_neg hd] at h
        rcases List.mem_cons.mp h with h3 | h3
        · simp [h3]
        · exact List.mem_cons_of_mem a (ih c h3)

theorem collapseHyphens_head :
    ∀ rest b, ∃ t, collapseHyphens (b :: rest) = b :: t := by
  intro rest
  induction rest with
  | nil => intro b; exact ⟨[], rfl⟩
  | cons c rs ih =>
    intro b
    unfold collapseHyphens
    by_cases hd : (b == '-' && c == '-') = true
    · rw [if_pos hd]
      have hd' := hd
      rw [Bool.and_eq_true] at hd'
      have hb : b = '-' := eq_of_beq hd'.1
      have hc : c = '-' := eq_of_beq hd'.2
      obtain ⟨t, ht⟩ := ih c
      exact ⟨t, by rw [ht, hb, hc]⟩
    · rw [if_neg hd]
      exact ⟨collapseHyphens (c :: rs), rfl⟩

theorem collapseHyphens_noDouble :
    ∀ l, noDoubleHyphen (collapseHyphens l) = true := by
  intro l
  induction l with
  | nil => rfl
  | cons a tl ih =>
    cases tl with
    | nil => rfl
    | cons b rest =>
      unfold collapseHyphens
      by_cases hd : (a == '-' && b == '-') = true
      · rw [if_pos hd]
        exact ih
      · rw [if_neg hd]
        obtain ⟨t, ht⟩ := collapseHyphens_head rest b
        rw [ht]
        have ihb : noDoubleHyphen (b :: t) = true := ht ▸ ih
        have hfd : (a == '-' && b == '-') = false := by simpa using hd
        show (!(a == '-' && b == '-') && noDoubleHyphen (b :: t)) = true
        rw [hfd, ihb]
        rfl

theorem foldl_word : ∀ (n : Nat) (l : List Char), l.length ≤ n →
    (∀ c ∈ l, (isSlugAlnum c || c == '-') = true) →
    noDoubleHyphen l = true → l.getLast? ≠ some '-' →
    List.foldl slugStep (some SlugState.word) l = some SlugState.word := by
  intro n
  induction n with
  | zero =>
    intro l hlen _ _ _
    have hnil : l = [] := List.eq_nil_of_length_eq_zero (Nat.le_zero.mp hlen)
    subst hnil
    rfl
  | succ n ih =>
    intro l hlen hall hnd hlast
    cases l with
    | nil => rfl
    | cons c tl =>
      have hc := hall c (List.mem_cons_self c tl)
      rw [Bool.or_eq_true] at hc
      by_cases ha : isSlugAlnum c = true
      · have hstep : slugStep (some SlugState.word) c = some SlugState.word := by
          simp [slugStep, ha]
        rw [List.foldl_cons, hstep]
        cases tl with
        | nil => rfl
        | cons d ts =>
          apply ih (d :: ts)
          · simp only [List.length_cons] at hlen ⊢
            omega
          · intro x hx
            exact hall x (List.mem_cons_of_mem c hx)
          · exact noDouble_tail c (d :: ts) hnd
          · rw [List.getLast?_cons_cons] at hlast
            exact hlast
      · have hcd : (c == '-') = true := by
          rcases hc with h1 | h2
          · exact absurd h1 ha
          · exact h2
        have hceq : c = '-' := eq_of_beq hcd
        subst hceq
        cases tl with
        | nil =>
          exfalso
          apply hlast
          rfl
        | cons d ts =>
          have hd : (d == '-') = false := by
            have hp := noDouble_pair '-' d ts hnd
            simpa using hp
          have hda : isSlugAlnum d = true := by
            have hdall := hall d (List.mem_cons_of_mem _ (List.mem_cons_self d ts))
            rw [Bool.or_eq_true] at hdall
            rcases hdall with h1 | h2
            · exact h1
            · rw [hd] at h2
              cases h2
          have hstep2 : slugStep (some SlugState.hyphen) d = some SlugState.word := by
            simp [slugStep, hda]
          have hstep12 : slugStep (slugStep (some SlugState.word) '-') d
              = some SlugState.word := hstep2
          rw [List.foldl_cons, List.foldl_cons, hstep12]
          apply ih ts
          · simp only [List.length_cons] at hlen ⊢
            omega
          · intro x hx
            exact hall x (List.mem_cons_of_mem _ (List.mem_cons_of_mem _ hx))
          · exact noDouble_tail d ts (noDouble_tail '-' (d :: ts) hnd)
          · cases ts with
            | nil => simp
            | cons e es =>
              rw [List.getLast?_cons_cons, List.getLast?_cons_cons] at hlast
              exact hlast

theorem slugAccepts_of (l : List Char) (hne : l ≠ [])
    (hall : ∀ c ∈ l, (isSlugAlnum c || c == '-') = true)
    (hnd : noDoubleHyphen l = true)
    (hhead : ∀ a t, l = a :: t → a ≠ '-')
    (hlast : l.getLast? ≠ some '-') : slugAccepts l = true := by
  cases l with
  | nil => exact absurd rfl hne
  | cons c tl =>
    have hcne : c ≠ '-' := hhead c tl rfl
    have hc := hall c (List.mem_cons_self c tl)
    rw [Bool.or_eq_true] at hc
    have ha : isSlugAlnum c = true := by
      rcases hc with h1 | h2
      · exact h1
      · exact absurd (eq_of_beq h2) hcne
    have hstep : slugStep (some SlugState.start) c = some SlugState.word := by
      simp [slugStep, ha]
    have hword : List.foldl slugStep (some SlugState.word) tl = some SlugState.word := by
      apply foldl_word tl.length tl Nat.le.refl
      · intro x hx
        exact hall x (List.mem_cons_of_mem c hx)
      · exact noDouble_tail c tl hnd
      · cases tl with
        | nil => simp
        | cons d ts =>
          rw [List.getLast?_cons_cons] at hlast
          exact hlast
    unfold slugAccepts
    rw [List.foldl_cons, hstep, hword]

/-- Claim C10: every output of `slugify` is either the empty string or a
match of the slug validation pattern `^[a-z0-9]+(?:-[a-z0-9]+)*$` of the
`Post` model: only lowercase alphanumerics and single separating hyphens,
with no leading or trailing hyphen. -/
theorem slugify_result_matches_pattern (s : String) :
    slugify s = "" ∨ matchesSlugPattern (slugify s) = true := by
  cases hr : stripHyphens (collapseHyphens (keepSlugChars (replaceSpaceRuns
      (s.data.map Char.toLower)))) with
  | nil =>
    left
    show String.mk (stripHyphens (collapseHyphens (keepSlugChars (replaceSpaceRuns
      (s.data.map Char.toLower))))) = ""
    rw [hr]
  | cons a t =>
    right
    show slugAccepts (stripHyphens (collapseHyphens (keepSlugChars (replaceSpaceRuns
      (s.data.map Char.toLower))))) = true
    apply slugAccepts_of
    · rw [hr]
      simp
    · intro c hc
      have h1 : c ∈ collapseHyphens (keepSlugChars (replaceSpaceRuns
          (s.data.map Char.toLower))) := by
        unfold stripHyphens at hc
        exact mem_of_mem_dropWhile _ _ c (mem_of_mem_dropTrailing _ _ c hc)
      have h2 : c ∈ keepSlugChars (replaceSpaceRuns (s.data.map Char.toLower)) :=
        collapseHyphens_mem _ c h1
      exact (List.mem_filter.mp h2).2
    · unfold stripHyphens
      exact noDouble_dropTrailing _ _
        (noDouble_dropWhile _ _ (collapseHyphens_noDouble _))
    · intro a' t' heq
      unfold stripHyphens at heq
      obtain ⟨t2, ht2⟩ := dropTrailing_head _ _ a' t' heq
      have hfalse := dropWhile_head_false _ _ a' t2 ht2
      intro hcontra
      rw [hcontra] at hfalse
      simp at hfalse
    · intro hcontra
      unfold stripHyphens at hcontra
      have hfalse := dropTrailing_getLast_not _ _ '-' hcontra
      simp at hfalse

theorem strContains_appL (a : String) {h n : String} :
    strContains h n → strContains (a ++ h) n := by
  rintro ⟨p, s, rfl⟩
  exact ⟨a ++ p, s, by simp [String.append_assoc]⟩

theorem strContains_appR (a : String) {h n : String} :
    strContains h n → strContains (h ++ a) n := by
  rintro ⟨p, s, rfl⟩
  exact ⟨p, s ++ a, by simp [String.append_assoc]⟩

theorem strContains_self (n : String) : strContains n n :=
  ⟨"", "", by simp [String.empty_append, String.append_empty]⟩

/-- Claim C8: the SEO block is the concatenation of the meta-tag block
(taken verbatim from `generate_meta_tags` of `metadata.py`) and the JSON-LD
script block, and it contains every required meta tag and JSON-LD field
with the enriched post's literal field values interpolated. -/
theorem generate_seo_tags_structure (ep : EnrichedPost) :
    generate_seo_tags ep
      = generate_meta_tags ep.post ep.full_url ep.image ep.description
        ++ "\n" ++ generate_json_ld ep
    ∧ strContains (generate_seo_tags ep)
        ("<meta name=\"description\" content=\"" ++ ep.description ++ "\">")
    ∧ strContains (generate_seo_tags ep)
        "<meta property=\"og:type\" content=\"article\">"
    ∧ strContains (generate_seo_tags ep)
        ("<meta property=\"og:title\" content=\"" ++ ep.post.title ++ "\">")
    ∧ strContains (generate_seo_tags ep)
        ("<meta property=\"og:description\" content=\"" ++ ep.description ++ "\">")
    ∧ strContains (generate_seo_tags ep)
        ("<meta property=\"og:url\" content=\"" ++ ep.full_url ++ "\">")
    ∧ strContains (generate_seo_tags ep)
        ("<meta property=\"og:image\" content=\"" ++ ep.image ++ "\">")
    ∧ strContains (generate_seo_tags ep)
        ("<meta property=\"og:locale\" content=\"" ++ ep.post.lang ++ "\">")
    ∧ strContains (generate_seo_tags ep)
        ("<meta property=\"article:published_time\" content=\""
          ++ ep.post.published_datetime_iso ++ "\">")
    ∧ strContains (generate_seo_tags ep)
        "<meta name=\"twitter:card\" content=\"summary_large_image\">"
    ∧ strContains (generate_seo_tags ep)
        ("<meta name=\"twitter:title\" content=\"" ++ ep.post.title ++ "\">")
    ∧ strContains (generate_seo_tags ep)
        ("<meta name=\"twitter:description\" content=\"" ++ ep.description ++ "\">")
    ∧ strContains (generate_seo_tags ep)
        ("<meta name=\"twitter:image\" content=\"" ++ ep.image ++ "\">")
    ∧ strContains (generate_seo_tags ep) "\"@context\": \"https://schema.org\""
    ∧ strContains (generate_seo_tags ep) "\"@type\": \"BlogPosting\""
    ∧ strContains (generate_seo_tags ep)
        ("\"headline\": \"" ++ ep.post.title ++ "\"")
    ∧ strContains (generate_seo_tags ep)
        ("\"url\": \"" ++ ep.full_url ++ "\"")
    ∧ strContains (generate_seo_tags ep)
        ("\"inLanguage\": \"" ++ ep.post.lang ++ "\"")
    ∧ strContains (generate_seo_tags ep)
        ("\"datePublished\": \"" ++ ep.post.published_datetime_iso ++ "\"") := by
  refine ⟨rfl, ?_, ?_, ?_, ?_, ?_, ?_, ?_, ?_, ?_, ?_, ?_, ?_, ?_, ?_, ?_, ?_, ?_, ?_⟩
  · unfold generate_seo_tags generate_meta_tags
    iterate 24 apply strContains_appR
    exact strContains_appL _ (strContains_self _)
  · unfold generate_seo_tags generate_meta_tags
    iterate 22 apply strContains_appR
    exact strContains_appL _ (strContains_self _)
  · unfold generate_seo_tags generate_meta_tags
    iterate 20 apply strContains_appR
    exact strContains_appL _ (strContains_self _)
  · unfold generate_seo_tags generate_meta_tags
    iterate 18 apply strContains_appR
    exact strContains_appL _ (strContains_self _)
  · unfold generate_seo_tags generate_meta_tags
    iterate 16 apply strContains_appR
    exact strContains_appL _ (strContains_self _)
  · unfold generate_seo_tags generate_meta_tags
    iterate 14 apply strContains_appR
    exact strContains_appL _ (strContains_self _)
  · unfold generate_seo_tags generate_meta_tags
    iterate 12 apply strContains_appR
    exact strContains_appL _ (strContains_self _)
  · unfold generate_seo_tags generate_meta_tags
    iterate 10 apply strContains_appR
    exact strContains_appL _ (strContains_self _)
  · unfold generate_seo_tags generate_meta_tags
    iterate 8 apply strContains_appR
    exact strContains_appL _ (strContains_self _)
  · unfold generate_seo_tags generate_meta_tags
    iterate 6 apply strContains_appR
    exact strContains_appL _ (strContains_self _)
  · unfold generate_seo_tags generate_meta_tags
    iterate 4 apply strContains_appR
    exact strContains_appL _ (strContains_self _)
  · unfold generate_seo_tags generate_meta_tags
    iterate 2 apply strContains_appR
    exact strContains_appL _ (strContains_self _)
  · unfold generate_seo_tags generate_json_ld
    apply strContains_appL
    iterate 11 apply strContains_appR
    exact strContains_appL _ (strContains_self _)
  · unfold generate_seo_tags generate_json_ld
    apply strContains_appL
    iterate 9 apply strContains_appR
    exact strContains_appL _ (strContains_self _)
  · unfold generate_seo_tags generate_json_ld
    apply strContains_appL
    iterate 7 apply strContains_appR
    exact strContains_appL _ (strContains_self _)
  · unfold generate_seo_tags generate_json_ld
    apply strContains_appL
    iterate 5 apply strContains_appR
    exact strContains_appL _ (strContains_self _)
  · unfold generate_seo_tags generate_json_ld
    apply strContains_appL
    iterate 3 apply strContains_appR
    exact strContains_appL _ (strContains_self _)
  · unfold generate_seo_tags generate_json_ld
    apply strContains_appL
    iterate 1 apply strContains_appR
    exact strContains_appL _ (strContains_self _)

end BoumWave
